import Mathlib

/-!
Verification of the hierarchical, type-segregated configuration store of
lc0 (src/utils/optionsdict.h) against its natural-language specification.

The C++ code is shallowly embedded as follows.

* TypeDict<T>::V (a boxed value with a mutable "was read" flag) becomes the
  structure TypeDict.V.  The mutable flag mutated through const accessors is
  modelled by explicit state passing: every operation that can touch a flag
  returns the updated store alongside its result.
* The per-type std::unordered_map<std::string, V> member dict_ becomes an
  association list with unique keys (TypeDict.Dict); map iteration order is
  modelled by list order.
* OptionsDict composes the four typed stores (bool, int, std::string, float)
  and the subdictionaries.  The non-owning parent_ pointer chain is modelled
  by passing the list of ancestor dictionaries (nearest first) to every
  operation that consults the parent; an empty list models parent_ == nullptr.
* C++ float values only ever flow through this component unchanged (stored,
  compared, returned - never computed with), so they are modelled exactly by
  a decimal mantissa/exponent pair (DecNum).
* Exceptions become Except String carrying the exact message the code builds.
* OptionId objects are identified by their address (&option_id).  The address
  is modelled as a Nat field addr; distinct live C++ objects have distinct
  addresses, so distinct objects are modelled by distinct addr values.
  std::to_string of the (nonnegative) pointer value is modelled by
  natToString, a decimal renderer proved injective below.
-/

/-- The four value types supported by the store, as in
class OptionsDict : TypeDict of bool, int, std::string and float. -/
inductive VType : Type where
  | vBool : VType
  | vInt : VType
  | vString : VType
  | vFloat : VType
deriving DecidableEq

/-- An exact decimal number mant * 10 ^ exp10, the model of the C++ float
values held by the store (they are only stored and returned, never computed
with, and the decimal literals of the claims are exact in float). -/
structure DecNum : Type where
  mant : Int
  exp10 : Int
deriving DecidableEq

/-- The Lean type denoted by each supported value type. -/
@[reducible] def VType.denote : VType → Type
  | .vBool => Bool
  | .vInt => Int
  | .vString => String
  | .vFloat => DecNum

/-- The zero value each type is value-initialized with by
std::unordered_map::operator[] (false, 0, empty string, 0.0f). -/
def VType.zero : (t : VType) → t.denote
  | .vBool => false
  | .vInt => (0 : Int)
  | .vString => ""
  | .vFloat => { mant := 0, exp10 := 0 }

/-- TypeDict<T>::V: a boxed value plus the mutable is_used_ flag. -/
structure TypeDict.V (α : Type) : Type where
  value : α
  is_used : Bool
deriving DecidableEq

/-- V::Get: marks the entry used and returns its value.  The mutation of the
mutable flag is returned as the updated box. -/
def TypeDict.V.Get {α : Type} (v : TypeDict.V α) : α × TypeDict.V α :=
  (v.value, { v with is_used := true })

/-- V::Set: overwrites the value and resets the used flag to false. -/
def TypeDict.V.Set {α : Type} (_v : TypeDict.V α) (x : α) : TypeDict.V α :=
  { value := x, is_used := false }

/-- V::IsSet: reports the used flag. -/
def TypeDict.V.IsSet {α : Type} (v : TypeDict.V α) : Bool :=
  v.is_used

/-- The member std::unordered_map<std::string, V> dict_, as an association
list with unique keys. -/
abbrev TypeDict.Dict (α : Type) : Type := List (String × TypeDict.V α)

/-- dict_.find(key): the first entry with the given key, if any. -/
def TypeDict.find {α : Type} (k : String) : TypeDict.Dict α → Option (TypeDict.V α)
  | [] => none
  | (k2, v) :: rest => if k2 = k then some v else TypeDict.find k rest

/-- dict_[key].Set(value): operator[] inserts a value-initialized box when the
key is absent, then Set overwrites it and clears the used flag. -/
def TypeDict.setEntry {α : Type} (k : String) (x : α) : TypeDict.Dict α → TypeDict.Dict α
  | [] => [(k, { value := x, is_used := false })]
  | (k2, v) :: rest =>
    if k2 = k then (k2, TypeDict.V.Set v x) :: rest
    else (k2, v) :: TypeDict.setEntry k x rest

/-- The write-back of iter->second.Get(): the entry at the key (if any) gets
its used flag set. -/
def TypeDict.markUsed {α : Type} (k : String) : TypeDict.Dict α → TypeDict.Dict α
  | [] => []
  | (k2, v) :: rest =>
    if k2 = k then (k2, (TypeDict.V.Get v).2) :: rest
    else (k2, v) :: TypeDict.markUsed k rest

/-- dict_[key].Get(): operator[] inserts a value-initialized box (value z,
used flag false) when the key is absent, then Get marks it used and yields
the value.  Returns the value and the updated store. -/
def TypeDict.getRefEntry {α : Type} (k : String) (z : α) :
    TypeDict.Dict α → α × TypeDict.Dict α
  | [] => (z, [(k, { value := z, is_used := true })])
  | (k2, v) :: rest =>
    if k2 = k then ((TypeDict.V.Get v).1, (k2, (TypeDict.V.Get v).2) :: rest)
    else
      let r := TypeDict.getRefEntry k z rest
      (r.1, (k2, v) :: r.2)

/-- TypeDict::EnsureNoUnusedOptions: walks dict_ and throws on the first
entry whose used flag is false, naming the type and the prefixed key. -/
def TypeDict.EnsureNoUnusedOptions {α : Type} (typeName pfx : String) :
    TypeDict.Dict α → Except String Unit
  | [] => .ok ()
  | (k, v) :: rest =>
    if TypeDict.V.IsSet v then TypeDict.EnsureNoUnusedOptions typeName pfx rest
    else .error ("Unknown " ++ typeName ++ " option: " ++ pfx ++ k)

/-- The first entry of a store whose used flag is false (specification-level
view of EnsureNoUnusedOptions). -/
def TypeDict.firstUnused {α : Type} : TypeDict.Dict α → Option String
  | [] => none
  | (k, v) :: rest => if v.is_used then TypeDict.firstUnused rest else some k

/-- OptionsDict: the four typed stores plus the subdictionaries, modelled as
a tree.  The parent_ pointer is modelled by the ancestor chain passed to the
operations below. -/
inductive OptionsDict : Type where
  | mk (boolDict : TypeDict.Dict Bool) (intDict : TypeDict.Dict Int)
       (stringDict : TypeDict.Dict String) (floatDict : TypeDict.Dict DecNum)
       (subdicts : List (String × OptionsDict)) : OptionsDict

/-- The TypeDict<bool> store of this dictionary. -/
def OptionsDict.boolDict : OptionsDict → TypeDict.Dict Bool
  | .mk b _ _ _ _ => b

/-- The TypeDict<int> store of this dictionary. -/
def OptionsDict.intDict : OptionsDict → TypeDict.Dict Int
  | .mk _ i _ _ _ => i

/-- The TypeDict<std::string> store of this dictionary. -/
def OptionsDict.stringDict : OptionsDict → TypeDict.Dict String
  | .mk _ _ s _ _ => s

/-- The TypeDict<float> store of this dictionary. -/
def OptionsDict.floatDict : OptionsDict → TypeDict.Dict DecNum
  | .mk _ _ _ f _ => f

/-- The subdicts_ member (std::map from name to child dictionary). -/
def OptionsDict.subdicts : OptionsDict → List (String × OptionsDict)
  | .mk _ _ _ _ s => s

/-- The store selected by TypeDict<T>::dict_ for a given value type T. -/
def OptionsDict.tdict : (t : VType) → OptionsDict → TypeDict.Dict t.denote
  | .vBool, d => d.boolDict
  | .vInt, d => d.intDict
  | .vString, d => d.stringDict
  | .vFloat, d => d.floatDict

/-- Replace the store selected by a value type, leaving the rest unchanged. -/
def OptionsDict.withTdict : (t : VType) → OptionsDict → TypeDict.Dict t.denote → OptionsDict
  | .vBool, d, s => .mk s d.intDict d.stringDict d.floatDict d.subdicts
  | .vInt, d, s => .mk d.boolDict s d.stringDict d.floatDict d.subdicts
  | .vString, d, s => .mk d.boolDict d.intDict s d.floatDict d.subdicts
  | .vFloat, d, s => .mk d.boolDict d.intDict d.stringDict s d.subdicts

/-- Replace the subdictionaries, leaving the typed stores unchanged. -/
def OptionsDict.withSubdicts (d : OptionsDict) (l : List (String × OptionsDict)) : OptionsDict :=
  .mk d.boolDict d.intDict d.stringDict d.floatDict l

/-- A freshly constructed OptionsDict: all stores empty, no subdictionaries. -/
def OptionsDict.empty : OptionsDict := .mk [] [] [] [] []

/-- OptionsDict::Get (string key): looks the key up in the own typed store;
found entries are read through V::Get, which marks them used (returned as the
updated own dictionary); on a miss the parent chain is consulted; with no
parent left the exact exception message of the source is raised. -/
def OptionsDict.Get (t : VType) (k : String) :
    OptionsDict → List OptionsDict → Except String (t.denote × OptionsDict × List OptionsDict)
  | d, chain =>
    match TypeDict.find k (OptionsDict.tdict t d) with
    | some v =>
      .ok ((TypeDict.V.Get v).1,
           OptionsDict.withTdict t d (TypeDict.markUsed k (OptionsDict.tdict t d)), chain)
    | none =>
      match chain with
      | [] => .error ("Key [" ++ k ++ "] was not set in options.")
      | p :: rest =>
        match OptionsDict.Get t k p rest with
        | .ok (x, p2, rest2) => .ok (x, d, p2 :: rest2)
        | .error e => .error e

/-- OptionsDict::Exists (string key): true when the own typed store has the
key, false at a parentless miss, otherwise the parent decides.  No used flag
is touched (the lookup is dict.find, not V::Get); the returned dictionary and
chain make that explicit. -/
def OptionsDict.Exists (t : VType) (k : String) :
    OptionsDict → List OptionsDict → Bool × OptionsDict × List OptionsDict
  | d, chain =>
    match TypeDict.find k (OptionsDict.tdict t d) with
    | some _ => (true, d, chain)
    | none =>
      match chain with
      | [] => (false, d, [])
      | p :: rest =>
        let r := OptionsDict.Exists t k p rest
        (r.1, d, r.2.1 :: r.2.2)

/-- OptionsDict::GetOrDefault (string key): like Get but yields the supplied
default at a parentless miss instead of throwing. -/
def OptionsDict.GetOrDefault (t : VType) (k : String) (dv : t.denote) :
    OptionsDict → List OptionsDict → t.denote × OptionsDict × List OptionsDict
  | d, chain =>
    match TypeDict.find k (OptionsDict.tdict t d) with
    | some v =>
      ((TypeDict.V.Get v).1,
       OptionsDict.withTdict t d (TypeDict.markUsed k (OptionsDict.tdict t d)), chain)
    | none =>
      match chain with
      | [] => (dv, d, [])
      | p :: rest =>
        let r := OptionsDict.GetOrDefault t k dv p rest
        (r.1, d, r.2.1 :: r.2.2)

/-- OptionsDict::Set (string key): writes into the own typed store only
(dict_[key].Set(value)). -/
def OptionsDict.Set (t : VType) (k : String) (x : t.denote) (d : OptionsDict) : OptionsDict :=
  OptionsDict.withTdict t d (TypeDict.setEntry k x (OptionsDict.tdict t d))

/-- OptionsDict::GetRef (string key): dict_[key].Get() on the own typed store
only - the parent is never consulted.  A missing entry is value-initialized
by operator[]; Get then marks it used and returns it. -/
def OptionsDict.GetRef (t : VType) (k : String) (d : OptionsDict) : t.denote × OptionsDict :=
  let r := TypeDict.getRefEntry k (VType.zero t) (OptionsDict.tdict t d)
  (r.1, OptionsDict.withTdict t d r.2)

/-- OptionsDict::IsDefault (string key): true unconditionally when there is
no parent; otherwise false when the own typed store has the key, else the
parent decides.  No used flag is touched. -/
def OptionsDict.IsDefault (t : VType) (k : String) :
    OptionsDict → List OptionsDict → Bool × OptionsDict × List OptionsDict
  | d, [] => (true, d, [])
  | d, p :: rest =>
    match TypeDict.find k (OptionsDict.tdict t d) with
    | some _ => (false, d, p :: rest)
    | none =>
      let r := OptionsDict.IsDefault t k p rest
      (r.1, d, r.2.1 :: r.2.2)

/-- The resolution of a key over a scope chain as the specification words
it: the nearest scope (self first, then the ancestors) whose own typed store
defines the key supplies the value; none when the key is absent everywhere.
An override at any depth therefore shadows all scopes above it. -/
def specResolve (t : VType) (k : String) : List OptionsDict → Option t.denote
  | [] => none
  | d :: rest =>
    match TypeDict.find k (OptionsDict.tdict t d) with
    | some v => some v.value
    | none => specResolve t k rest

/-- The value component of OptionsDict::Get, discarding the flag updates. -/
def OptionsDict.GetVal (t : VType) (k : String) (d : OptionsDict)
    (chain : List OptionsDict) : Except String t.denote :=
  (OptionsDict.Get t k d chain).map (fun r => r.1)

/-- The decimal digit character for a digit below ten. -/
def digitChar10 (d : Nat) : Char := Char.ofNat (48 + d)

/-- The little-endian decimal digits of n (empty for zero), with fuel. -/
def natDigitsLE : Nat → Nat → List Nat
  | 0, _ => []
  | Nat.succ fuel, n => if n = 0 then [] else n % 10 :: natDigitsLE fuel (n / 10)

/-- The little-endian decimal digits rendered for n, a single zero digit for
zero. -/
def natDigitsRepr (n : Nat) : List Nat :=
  if n = 0 then [0] else natDigitsLE n n

/-- Recombine little-endian decimal digits into the number. -/
def ofDigitsLE : List Nat → Nat
  | [] => 0
  | d :: ds => d + 10 * ofDigitsLE ds

/-- Models std::to_string applied to the (nonnegative) pointer value in
OptionsDict::GetOptionId: the usual decimal rendering of a natural number. -/
def natToString (n : Nat) : String :=
  String.mk ((natDigitsRepr n).reverse.map digitChar10)

/-- OptionId: long flag, UCI option name, help text, one-character short
flag.  Copying is deleted and equality is object identity in the source; the
object identity (its address) is modelled by the extra field addr, distinct
for distinct live objects. -/
structure OptionId : Type where
  long_flag : String
  uci_option : String
  help_text : String
  short_flag : Char
  addr : Nat

/-- OptionsDict::GetOptionId:
std::to_string(reinterpret_cast of the address of option_id). -/
def OptionsDict.GetOptionId (oid : OptionId) : String :=
  natToString oid.addr

/-- OptionsDict::Get (OptionId overload): Get at the derived string key. -/
def OptionsDict.GetById (t : VType) (oid : OptionId) (d : OptionsDict)
    (chain : List OptionsDict) : Except String (t.denote × OptionsDict × List OptionsDict) :=
  OptionsDict.Get t (OptionsDict.GetOptionId oid) d chain

/-- OptionsDict::Set (OptionId overload): Set at the derived string key. -/
def OptionsDict.SetById (t : VType) (oid : OptionId) (x : t.denote) (d : OptionsDict) :
    OptionsDict :=
  OptionsDict.Set t (OptionsDict.GetOptionId oid) x d

/-- OptionsDict::Exists (OptionId overload): Exists at the derived string
key. -/
def OptionsDict.ExistsById (t : VType) (oid : OptionId) (d : OptionsDict)
    (chain : List OptionsDict) : Bool × OptionsDict × List OptionsDict :=
  OptionsDict.Exists t (OptionsDict.GetOptionId oid) d chain

/-- Every entry of every typed store of this dictionary has been read. -/
def OptionsDict.allRead (d : OptionsDict) : Bool :=
  d.boolDict.all (fun e => e.2.is_used) && d.intDict.all (fun e => e.2.is_used) &&
  d.stringDict.all (fun e => e.2.is_used) && d.floatDict.all (fun e => e.2.is_used)

/-- The first unread entry of this dictionary across its four typed stores,
with the name of its type, in declaration order of the stores. -/
def OptionsDict.firstUnread (d : OptionsDict) : Option (String × String) :=
  match TypeDict.firstUnused d.boolDict with
  | some k => some ("boolean", k)
  | none =>
    match TypeDict.firstUnused d.intDict with
    | some k => some ("integer", k)
    | none =>
      match TypeDict.firstUnused d.stringDict with
      | some k => some ("text", k)
      | none => (TypeDict.firstUnused d.floatDict).map (fun k => ("floating-point", k))

/-- Modelled from the spec: the body of OptionsDict::CheckAllOptionsRead is
not among the sources (only its declaration and doc comment are).  Per the
spec it runs TypeDict::EnsureNoUnusedOptions on each supported typed store
of this scope with the accumulated path label, failing on the first unread
entry, and does not recurse into subdictionaries (the caller walks the tree
and invokes it per scope). -/
def OptionsDict.CheckAllOptionsRead (d : OptionsDict) (pathFromParent : String) :
    Except String Unit :=
  match TypeDict.EnsureNoUnusedOptions "boolean" pathFromParent d.boolDict with
  | .error e => .error e
  | .ok _ =>
    match TypeDict.EnsureNoUnusedOptions "integer" pathFromParent d.intDict with
    | .error e => .error e
    | .ok _ =>
      match TypeDict.EnsureNoUnusedOptions "text" pathFromParent d.stringDict with
      | .error e => .error e
      | .ok _ => TypeDict.EnsureNoUnusedOptions "floating-point" pathFromParent d.floatDict

/-- Lookup of a named subdictionary in subdicts_. -/
def OptionsDict.findSubdict (name : String) : List (String × OptionsDict) → Option OptionsDict
  | [] => none
  | (n, sub) :: rest => if n = name then some sub else OptionsDict.findSubdict name rest

/-- OptionsDict::HasSubdict: whether a subdictionary of that name exists. -/
def OptionsDict.HasSubdict (d : OptionsDict) (name : String) : Bool :=
  (OptionsDict.findSubdict name d.subdicts).isSome

/-- Modelled from the spec: subdictionary creation (the body of
OptionsDict::AddSubdict is not among the sources).  Adding a name already
present is an error; otherwise the child is recorded under its name. -/
def OptionsDict.addParsedSubdict (d : OptionsDict) (name : String) (sub : OptionsDict) :
    Except String OptionsDict :=
  if (OptionsDict.findSubdict name d.subdicts).isSome then
    .error ("Subdictionary already exists: " ++ name)
  else
    .ok (OptionsDict.withSubdicts d (d.subdicts ++ [(name, sub)]))

/-- Whitespace characters that the grammar treats as insignificant. -/
def isWsChar (c : Char) : Bool := c = ' ' || c = '\t' || c = '\n' || c = '\r'

/-- Skip insignificant whitespace. -/
def skipWs : List Char → List Char
  | [] => []
  | c :: rest => if isWsChar c then skipWs rest else c :: rest

/-- Characters an unquoted identifier may consist of. -/
def isIdentChar (c : Char) : Bool := c.isAlphanum || c = '_' || c = '-'

/-- Take the longest identifier at the head of the input. -/
def takeIdent : List Char → List Char × List Char
  | [] => ([], [])
  | c :: rest =>
    if isIdentChar c then
      let r := takeIdent rest
      (c :: r.1, r.2)
    else ([], c :: rest)

/-- Parse the tail of a quoted string (the opening quote already consumed):
characters until the closing quote, a backslash escaping the next
character; none on an unterminated string. -/
def parseQuoted : List Char → Option (List Char × List Char)
  | [] => none
  | '"' :: rest => some ([], rest)
  | '\\' :: c :: rest => (parseQuoted rest).map (fun r => (c :: r.1, r.2))
  | c :: rest => (parseQuoted rest).map (fun r => (c :: r.1, r.2))

/-- Take a bare value token: everything up to the next comma or closing
parenthesis. -/
def takeBare : List Char → List Char × List Char
  | [] => ([], [])
  | c :: rest =>
    if c = ',' || c = ')' then ([], c :: rest)
    else
      let r := takeBare rest
      (c :: r.1, r.2)

/-- Drop trailing insignificant whitespace from a bare token. -/
def trimTrailingWs (l : List Char) : List Char :=
  (l.reverse.dropWhile isWsChar).reverse

/-- A leading minus sign, split off. -/
def splitSign : List Char → Bool × List Char
  | '-' :: rest => (true, rest)
  | cs => (false, cs)

/-- A leading plus or minus sign of an exponent, split off. -/
def splitSignE : List Char → Bool × List Char
  | '-' :: rest => (true, rest)
  | '+' :: rest => (false, rest)
  | cs => (false, cs)

/-- Take the longest run of decimal digits at the head of the input. -/
def takeDigits : List Char → List Char × List Char
  | [] => ([], [])
  | c :: rest =>
    if c.isDigit then
      let r := takeDigits rest
      (c :: r.1, r.2)
    else ([], c :: rest)

/-- The number denoted by a run of decimal digit characters. -/
def digitsVal (ds : List Char) : Nat :=
  ds.foldl (fun a c => a * 10 + (c.toNat - 48)) 0

/-- A signed integer literal: optional minus sign followed by digits only. -/
def parseInteger (s : String) : Option Int :=
  let r := splitSign s.toList
  let r2 := takeDigits r.2
  if r2.1.isEmpty || !r2.2.isEmpty then none
  else some (if r.1 then -(digitsVal r2.1 : Int) else (digitsVal r2.1 : Int))

/-- Assemble a decimal literal from sign, mantissa digits and exponent. -/
def mkDec (neg : Bool) (mant : Nat) (e : Int) : DecNum :=
  { mant := if neg then -(mant : Int) else (mant : Int), exp10 := e }

/-- The optional exponent tail of a decimal literal, after the mantissa. -/
def parseExpTail (neg : Bool) (mant : Nat) (e0 : Int) : List Char → Option DecNum
  | [] => some (mkDec neg mant e0)
  | c :: cs =>
    if c = 'e' || c = 'E' then
      let r := splitSignE cs
      let r2 := takeDigits r.2
      if r2.1.isEmpty || !r2.2.isEmpty then none
      else
        some (mkDec neg mant
          (e0 + (if r.1 then -(digitsVal r2.1 : Int) else (digitsVal r2.1 : Int))))
    else none

/-- A floating-point literal: optional sign, digits with an optional decimal
point, and an optional exponent; exact decimal semantics. -/
def parseDecimal (s : String) : Option DecNum :=
  let r := splitSign s.toList
  let ri := takeDigits r.2
  match ri.2 with
  | '.' :: cs2 =>
    let rf := takeDigits cs2
    if ri.1.isEmpty && rf.1.isEmpty then none
    else parseExpTail r.1 (digitsVal (ri.1 ++ rf.1)) (-(rf.1.length : Int)) rf.2
  | cs =>
    if ri.1.isEmpty then none
    else parseExpTail r.1 (digitsVal ri.1) 0 cs

/-- Whether a bare token has the shape of a floating-point literal (contains
a decimal point or an exponent marker). -/
def looksFloat (s : String) : Bool :=
  s.toList.any (fun c => c = '.' || c = 'e' || c = 'E')

/-- A value token of the grammar: quoted string or bare token. -/
inductive ValueTok : Type where
  | quoted (s : String) : ValueTok
  | bare (s : String) : ValueTok

/-- Modelled from the spec: type inference for a parsed assignment.  A quoted
value is text; the words true and false are boolean; a token shaped like a
floating-point literal (decimal point or exponent) is floating-point; any
other token is integer; a token that fails its numeric parse falls back to
text.  The boolean words are recognized first since they are never numeric
literals, so no input is classified differently by this ordering. -/
def applyAssign (d : OptionsDict) (k : String) : ValueTok → OptionsDict
  | .quoted s => OptionsDict.Set .vString k s d
  | .bare s =>
    if s = "true" then OptionsDict.Set .vBool k true d
    else if s = "false" then OptionsDict.Set .vBool k false d
    else if looksFloat s then
      match parseDecimal s with
      | some q => OptionsDict.Set .vFloat k q d
      | none => OptionsDict.Set .vString k s d
    else
      match parseInteger s with
      | some n => OptionsDict.Set .vInt k n d
      | none => OptionsDict.Set .vString k s d

/-- Parse one value of the grammar: a quoted string or a nonempty bare token
trimmed of trailing whitespace. -/
def parseValue (cs : List Char) : Except String (ValueTok × List Char) :=
  match skipWs cs with
  | '"' :: rest =>
    match parseQuoted rest with
    | some r => .ok (.quoted (String.mk r.1), r.2)
    | none => .error "SyntaxError: unterminated quoted string"
  | cs2 =>
    let r := takeBare cs2
    let tok := trimTrailingWs r.1
    if tok.isEmpty then .error "SyntaxError: missing value"
    else .ok (.bare (String.mk tok), r.2)

/-- Modelled from the spec: the scope grammar, one fueled recursive-descent
pass.  A scope is a comma-separated list of assignments; an assignment is
identifier = value (set into the current scope, type-inferred) or
identifier ( scope ) (a subdictionary parsed recursively).  Returns the
grown dictionary and the unconsumed input (which stops before a closing
parenthesis or at the end). -/
def parseScopeF : Nat → OptionsDict → List Char → Except String (OptionsDict × List Char)
  | 0, _, _ => .error "SyntaxError: nesting too deep"
  | Nat.succ fuel, d, cs =>
    let cs1 := skipWs cs
    let r := takeIdent cs1
    if r.1.isEmpty then .error "SyntaxError: expected identifier"
    else
      match skipWs r.2 with
      | '=' :: cs2 =>
        match parseValue cs2 with
        | .error e => .error e
        | .ok (tok, cs3) =>
          let d2 := applyAssign d (String.mk r.1) tok
          match skipWs cs3 with
          | ',' :: cs4 => parseScopeF fuel d2 cs4
          | cs4 => .ok (d2, cs4)
      | '(' :: cs2 =>
        match parseScopeF fuel OptionsDict.empty cs2 with
        | .error e => .error e
        | .ok (sub, cs3) =>
          match skipWs cs3 with
          | ')' :: cs4 =>
            match OptionsDict.addParsedSubdict d (String.mk r.1) sub with
            | .error e => .error e
            | .ok d2 =>
              match skipWs cs4 with
              | ',' :: cs5 => parseScopeF fuel d2 cs5
              | cs5 => .ok (d2, cs5)
          | _ => .error "SyntaxError: unmatched parenthesis"
      | _ => .error "SyntaxError: expected = or ("

/-- Modelled from the spec: the body of OptionsDict::AddSubdictFromString is
not among the sources (only its declaration and doc comment are).  Per the
spec it parses the grammar string into this dictionary: bare assignments
into the current scope, parenthesized clauses as subdictionaries whose
parent reference is the enclosing scope (modelled here by reading a
subdictionary with the enclosing dictionary as its ancestor chain).
Trailing garbage after the top-level scope is a syntax error. -/
def OptionsDict.AddSubdictFromString (d : OptionsDict) (s : String) :
    Except String OptionsDict :=
  match parseScopeF (s.length + 1) d s.toList with
  | .error e => .error e
  | .ok (d2, rest) =>
    match skipWs rest with
    | [] => .ok d2
    | _ => .error "SyntaxError: trailing characters"

/-- The dictionary state after a successful Get of a key on a parentless
scope, i.e. with its read flag now set (the state is unchanged when the Get
fails).  Used to build the read-two-of-three scenario. -/
def OptionsDict.afterGet (t : VType) (k : String) (d : OptionsDict) : OptionsDict :=
  match OptionsDict.Get t k d [] with
  | .ok r => r.2.1
  | .error _ => d

theorem ofDigitsLE_natDigitsLE : ∀ fuel n : Nat, n ≤ fuel →
    ofDigitsLE (natDigitsLE fuel n) = n := by
  intro fuel
  induction fuel with
  | zero =>
    intro n hn
    have : n = 0 := Nat.le_zero.mp hn
    simp [this, natDigitsLE, ofDigitsLE]
  | succ fuel ih =>
    intro n hn
    by_cases h0 : n = 0
    · simp [h0, natDigitsLE, ofDigitsLE]
    · have hdiv : n / 10 ≤ fuel := by
        have : n / 10 < n := Nat.div_lt_self (Nat.pos_of_ne_zero h0) (by omega)
        omega
      simp only [natDigitsLE, h0, if_false, ofDigitsLE, ih (n / 10) hdiv]
      omega

theorem ofDigitsLE_natDigitsRepr (n : Nat) : ofDigitsLE (natDigitsRepr n) = n := by
  unfold natDigitsRepr
  by_cases h0 : n = 0
  · simp [h0, ofDigitsLE]
  · simp only [h0, if_false]
    exact ofDigitsLE_natDigitsLE n n le_rfl

theorem natDigitsLE_lt : ∀ fuel n : Nat, ∀ d ∈ natDigitsLE fuel n, d < 10 := by
  intro fuel
  induction fuel with
  | zero => intro n d hd; simp [natDigitsLE] at hd
  | succ fuel ih =>
    intro n d hd
    by_cases h0 : n = 0
    · simp [h0, natDigitsLE] at hd
    · simp only [natDigitsLE, h0, if_false, List.mem_cons] at hd
      rcases hd with h | h
      · subst h; exact Nat.mod_lt _ (by omega)
      · exact ih _ _ h

theorem natDigitsRepr_lt (n : Nat) : ∀ d ∈ natDigitsRepr n, d < 10 := by
  unfold natDigitsRepr
  by_cases h0 : n = 0
  · simp [h0]
  · simp only [h0, if_false]
    exact natDigitsLE_lt n n

theorem digitChar10_inj : ∀ d1 < 10, ∀ d2 < 10,
    digitChar10 d1 = digitChar10 d2 → d1 = d2 := by decide

theorem map_digitChar10_inj : ∀ l1 l2 : List Nat, (∀ d ∈ l1, d < 10) →
    (∀ d ∈ l2, d < 10) → l1.map digitChar10 = l2.map digitChar10 → l1 = l2 := by
  intro l1
  induction l1 with
  | nil => intro l2 _ _ h; cases l2 <;> simp_all
  | cons d1 t1 ih =>
    intro l2 h1 h2 h
    cases l2 with
    | nil => simp at h
    | cons d2 t2 =>
      simp only [List.map_cons, List.cons.injEq] at h
      have hd : d1 = d2 :=
        digitChar10_inj d1 (h1 d1 (by simp)) d2 (h2 d2 (by simp)) h.1
      have ht : t1 = t2 :=
        ih t2 (fun d hd => h1 d (by simp [hd])) (fun d hd => h2 d (by simp [hd])) h.2
      rw [hd, ht]

theorem natToString_inj {n1 n2 : Nat} (h : natToString n1 = natToString n2) :
    n1 = n2 := by
  have hdata : (natDigitsRepr n1).reverse.map digitChar10
      = (natDigitsRepr n2).reverse.map digitChar10 := congrArg String.data h
  have hrev : (natDigitsRepr n1).reverse = (natDigitsRepr n2).reverse :=
    map_digitChar10_inj _ _
      (fun d hd => natDigitsRepr_lt n1 d (List.mem_reverse.mp hd))
      (fun d hd => natDigitsRepr_lt n2 d (List.mem_reverse.mp hd)) hdata
  have hdig : natDigitsRepr n1 = natDigitsRepr n2 := by
    have := congrArg List.reverse hrev
    simpa using this
  calc n1 = ofDigitsLE (natDigitsRepr n1) := (ofDigitsLE_natDigitsRepr n1).symm
    _ = ofDigitsLE (natDigitsRepr n2) := by rw [hdig]
    _ = n2 := ofDigitsLE_natDigitsRepr n2

theorem tdict_withTdict (t : VType) (d : OptionsDict) (s : TypeDict.Dict t.denote) :
    OptionsDict.tdict t (OptionsDict.withTdict t d s) = s := by
  cases t <;> cases d <;> rfl

theorem subdicts_withTdict (t : VType) (d : OptionsDict) (s : TypeDict.Dict t.denote) :
    (OptionsDict.withTdict t d s).subdicts = d.subdicts := by
  cases t <;> cases d <;> rfl

theorem find_setEntry_self {α : Type} (k : String) (x : α) (l : TypeDict.Dict α) :
    TypeDict.find k (TypeDict.setEntry k x l) = some { value := x, is_used := false } := by
  induction l with
  | nil => simp [TypeDict.setEntry, TypeDict.find]
  | cons e rest ih =>
    obtain ⟨k2, v⟩ := e
    by_cases h : k2 = k
    · simp [TypeDict.setEntry, TypeDict.find, h, TypeDict.V.Set]
    · simp [TypeDict.setEntry, TypeDict.find, h, ih]

theorem find_setEntry_ne {α : Type} {k k2 : String} (h : k2 ≠ k) (x : α)
    (l : TypeDict.Dict α) :
    TypeDict.find k2 (TypeDict.setEntry k x l) = TypeDict.find k2 l := by
  induction l with
  | nil => simp [TypeDict.setEntry, TypeDict.find, Ne.symm h]
  | cons e rest ih =>
    obtain ⟨k3, v⟩ := e
    simp only [TypeDict.setEntry]
    by_cases h3 : k3 = k
    · subst h3
      simp [TypeDict.find, Ne.symm h]
    · simp only [if_neg h3]
      by_cases h32 : k3 = k2
      · simp [TypeDict.find, h32]
      · simp [TypeDict.find, h32, ih]

theorem find_markUsed_self {α : Type} (k : String) (l : TypeDict.Dict α) :
    TypeDict.find k (TypeDict.markUsed k l)
      = (TypeDict.find k l).map (fun v => { v with is_used := true }) := by
  induction l with
  | nil => simp [TypeDict.markUsed, TypeDict.find]
  | cons e rest ih =>
    obtain ⟨k2, v⟩ := e
    by_cases h : k2 = k
    · simp [TypeDict.markUsed, TypeDict.find, h, TypeDict.V.Get]
    · simp [TypeDict.markUsed, TypeDict.find, h, ih]

theorem getRefEntry_val {α : Type} (k : String) (z : α) (l : TypeDict.Dict α) :
    (TypeDict.getRefEntry k z l).1
      = match TypeDict.find k l with
        | some v => v.value
        | none => z := by
  induction l with
  | nil => simp [TypeDict.getRefEntry, TypeDict.find]
  | cons e rest ih =>
    obtain ⟨k2, v⟩ := e
    by_cases h : k2 = k
    · simp [TypeDict.getRefEntry, TypeDict.find, h, TypeDict.V.Get]
    · simp [TypeDict.getRefEntry, TypeDict.find, h, ih]

theorem find_getRefEntry_self {α : Type} (k : String) (z : α) (l : TypeDict.Dict α) :
    TypeDict.find k (TypeDict.getRefEntry k z l).2
      = some { value := (TypeDict.getRefEntry k z l).1, is_used := true } := by
  induction l with
  | nil => simp [TypeDict.getRefEntry, TypeDict.find]
  | cons e rest ih =>
    obtain ⟨k2, v⟩ := e
    by_cases h : k2 = k
    · simp [TypeDict.getRefEntry, TypeDict.find, h, TypeDict.V.Get]
    · simp [TypeDict.getRefEntry, TypeDict.find, h, ih]

theorem EnsureNoUnusedOptions_eq {α : Type} (tn pfx : String) (l : TypeDict.Dict α) :
    TypeDict.EnsureNoUnusedOptions tn pfx l
      = match TypeDict.firstUnused l with
        | none => .ok ()
        | some k => .error ("Unknown " ++ tn ++ " option: " ++ pfx ++ k) := by
  induction l with
  | nil => simp [TypeDict.EnsureNoUnusedOptions, TypeDict.firstUnused]
  | cons e rest ih =>
    obtain ⟨k2, v⟩ := e
    by_cases h : v.is_used
    · simp [TypeDict.EnsureNoUnusedOptions, TypeDict.firstUnused, TypeDict.V.IsSet, h, ih]
    · simp [TypeDict.EnsureNoUnusedOptions, TypeDict.firstUnused, TypeDict.V.IsSet, h]

/-- C1: Get on a scope returns the value in the own typed store when the key
is present there, otherwise exactly the parent's Get, recursively; at the
root a still-missing key fails with the KeyNotFound exception of the source.
Stated as a refinement: the value Get produces over any ancestor chain is
the resolution specResolve written from the words of the spec (nearest
definition wins), so an override at any depth shadows all scopes above it. -/
theorem claim1_get_chain (t : VType) (k : String) (d : OptionsDict)
    (chain : List OptionsDict) :
    (∀ v : t.denote, specResolve t k (d :: chain) = some v →
      OptionsDict.GetVal t k d chain = .ok v) ∧
    (specResolve t k (d :: chain) = none →
      OptionsDict.Get t k d chain
        = .error ("Key [" ++ k ++ "] was not set in options.")) := by
  induction chain generalizing d with
  | nil =>
    constructor
    · intro v hv
      cases hfind : TypeDict.find k (OptionsDict.tdict t d) with
      | some v0 =>
        simp only [specResolve, hfind] at hv
        have hv2 : v0.value = v := Option.some.inj hv
        simp [OptionsDict.GetVal, OptionsDict.Get, hfind, TypeDict.V.Get, Except.map, hv2]
      | none =>
        simp [specResolve, hfind] at hv
    · intro hn
      cases hfind : TypeDict.find k (OptionsDict.tdict t d) with
      | some v0 => simp [specResolve, hfind] at hn
      | none => simp [OptionsDict.Get, hfind]
  | cons p rest ih =>
    constructor
    · intro v hv
      cases hfind : TypeDict.find k (OptionsDict.tdict t d) with
      | some v0 =>
        simp only [specResolve, hfind] at hv
        have hv2 : v0.value = v := Option.some.inj hv
        simp [OptionsDict.GetVal, OptionsDict.Get, hfind, TypeDict.V.Get, Except.map, hv2]
      | none =>
        simp only [specResolve, hfind] at hv
        have hrec := (ih p).1 v hv
        simp only [OptionsDict.GetVal] at hrec
        cases hg : OptionsDict.Get t k p rest with
        | ok r =>
          rw [hg] at hrec
          simp only [Except.map] at hrec
          simp only [OptionsDict.GetVal, OptionsDict.Get, hfind, hg]
          simpa [Except.map] using hrec
        | error e =>
          rw [hg] at hrec
          simp [Except.map] at hrec
    · intro hn
      cases hfind : TypeDict.find k (OptionsDict.tdict t d) with
      | some v0 => simp [specResolve, hfind] at hn
      | none =>
        simp only [specResolve, hfind] at hn
        have hrec := (ih p).2 hn
        simp [OptionsDict.Get, hfind, hrec]

/-- Witness for C1: a child whose own integer store binds x to 7 shadows a
parent binding x to 9; Get at the child returns 7. -/
theorem claim1_get_chain_witness :
    OptionsDict.GetVal .vInt "x"
      (OptionsDict.mk [] [("x", { value := 7, is_used := false })] [] [] [])
      [OptionsDict.mk [] [("x", { value := 9, is_used := false })] [] [] []]
      = .ok 7 :=
  (claim1_get_chain .vInt "x"
    (OptionsDict.mk [] [("x", { value := 7, is_used := false })] [] [] [])
    [OptionsDict.mk [] [("x", { value := 9, is_used := false })] [] [] []]).1 7 rfl

/-- C2: Set then Get on the same scope round-trips the value exactly, over
any ancestor chain, and afterwards the entry in the own store of that scope
is marked read. -/
theorem claim2_set_get_roundtrip (t : VType) (k : String) (x : t.denote)
    (d : OptionsDict) (chain : List OptionsDict) :
    ∃ d2 : OptionsDict,
      OptionsDict.Get t k (OptionsDict.Set t k x d) chain = .ok (x, d2, chain) ∧
      TypeDict.find k (OptionsDict.tdict t d2) = some { value := x, is_used := true } := by
  have hfind : TypeDict.find k (OptionsDict.tdict t (OptionsDict.Set t k x d))
      = some { value := x, is_used := false } := by
    rw [OptionsDict.Set, tdict_withTdict]
    exact find_setEntry_self k x (OptionsDict.tdict t d)
  refine ⟨OptionsDict.withTdict t (OptionsDict.Set t k x d)
      (TypeDict.markUsed k (OptionsDict.tdict t (OptionsDict.Set t k x d))), ?_, ?_⟩
  · cases chain <;> simp [OptionsDict.Get, hfind, TypeDict.V.Get]
  · rw [tdict_withTdict, find_markUsed_self, hfind]
    rfl

/-- C3: IsDefault is true unconditionally at a parentless scope, even when
the key is set in its own store; at any other scope it is false when the key
is in the own typed store and otherwise the parent's IsDefault. -/
theorem claim3_isDefault (t : VType) (k : String) (d : OptionsDict)
    (chain : List OptionsDict) :
    (chain = [] → (OptionsDict.IsDefault t k d chain).1 = true) ∧
    (∀ p rest, chain = p :: rest →
      (OptionsDict.IsDefault t k d chain).1
        = (if (TypeDict.find k (OptionsDict.tdict t d)).isSome then false
           else (OptionsDict.IsDefault t k p rest).1)) := by
  constructor
  · intro h
    subst h
    rfl
  · intro p rest h
    subst h
    cases hfind : TypeDict.find k (OptionsDict.tdict t d) with
    | some v0 => simp [OptionsDict.IsDefault, hfind]
    | none => simp [OptionsDict.IsDefault, hfind]

/-- Witness for C3: at a parentless scope whose own integer store binds x,
IsDefault of x is still true; and on a child binding x with a parent,
IsDefault of x is false. -/
theorem claim3_isDefault_witness :
    (OptionsDict.IsDefault .vInt "x"
      (OptionsDict.mk [] [("x", { value := 7, is_used := false })] [] [] []) []).1 = true ∧
    (OptionsDict.IsDefault .vInt "x"
      (OptionsDict.mk [] [("x", { value := 7, is_used := false })] [] [] [])
      [OptionsDict.empty]).1 = false := by
  constructor
  · exact (claim3_isDefault .vInt "x"
      (OptionsDict.mk [] [("x", { value := 7, is_used := false })] [] [] []) []).1 rfl
  · rw [(claim3_isDefault .vInt "x"
      (OptionsDict.mk [] [("x", { value := 7, is_used := false })] [] [] [])
      [OptionsDict.empty]).2 OptionsDict.empty [] rfl]
    rfl

theorem stores_withSubdicts (d : OptionsDict) (subs : List (String × OptionsDict)) :
    (OptionsDict.withSubdicts d subs).boolDict = d.boolDict ∧
    (OptionsDict.withSubdicts d subs).intDict = d.intDict ∧
    (OptionsDict.withSubdicts d subs).stringDict = d.stringDict ∧
    (OptionsDict.withSubdicts d subs).floatDict = d.floatDict := by
  cases d
  exact ⟨rfl, rfl, rfl, rfl⟩

theorem CheckAllOptionsRead_eq (d : OptionsDict) (pfx : String) :
    OptionsDict.CheckAllOptionsRead d pfx
      = match OptionsDict.firstUnread d with
        | none => .ok ()
        | some r => .error ("Unknown " ++ r.1 ++ " option: " ++ pfx ++ r.2) := by
  unfold OptionsDict.CheckAllOptionsRead OptionsDict.firstUnread
  simp only [EnsureNoUnusedOptions_eq]
  cases TypeDict.firstUnused d.boolDict <;>
    cases TypeDict.firstUnused d.intDict <;>
      cases TypeDict.firstUnused d.stringDict <;>
        cases TypeDict.firstUnused d.floatDict <;> simp

/-- C4: CheckAllOptionsRead examines the typed stores of this scope only: it
succeeds when every entry has been read, fails with the UnrecognizedOption
exception naming path label plus key at the first entry whose read flag is
false, and ignores subdictionaries entirely.  In particular after setting
three integers and reading two of them it fails naming exactly the third. -/
theorem claim4_check_all_read (d : OptionsDict) (pfx : String)
    (subs : List (String × OptionsDict)) :
    (OptionsDict.firstUnread d = none →
      OptionsDict.CheckAllOptionsRead d pfx = .ok ()) ∧
    (∀ tn k2, OptionsDict.firstUnread d = some (tn, k2) →
      OptionsDict.CheckAllOptionsRead d pfx
        = .error ("Unknown " ++ tn ++ " option: " ++ pfx ++ k2)) ∧
    OptionsDict.CheckAllOptionsRead (OptionsDict.withSubdicts d subs) pfx
      = OptionsDict.CheckAllOptionsRead d pfx ∧
    OptionsDict.CheckAllOptionsRead
      (OptionsDict.afterGet .vInt "b" (OptionsDict.afterGet .vInt "a"
        (OptionsDict.Set .vInt "c" 3 (OptionsDict.Set .vInt "b" 2
          (OptionsDict.Set .vInt "a" 1 OptionsDict.empty))))) "p."
      = .error "Unknown integer option: p.c" := by
  refine ⟨?_, ?_, ?_, ?_⟩
  · intro h
    rw [CheckAllOptionsRead_eq, h]
  · intro tn k2 h
    rw [CheckAllOptionsRead_eq, h]
  · obtain ⟨h1, h2, h3, h4⟩ := stores_withSubdicts d subs
    unfold OptionsDict.CheckAllOptionsRead
    rw [h1, h2, h3, h4]
  · rfl

/-- Witness for C4: a scope with one unread integer entry fails naming it
with the path label, and a scope with every entry read succeeds. -/
theorem claim4_check_all_read_witness :
    OptionsDict.CheckAllOptionsRead
      (OptionsDict.mk [] [("z", { value := 5, is_used := false })] [] [] []) "s."
      = .error "Unknown integer option: s.z" ∧
    OptionsDict.CheckAllOptionsRead
      (OptionsDict.mk [] [("z", { value := 5, is_used := true })] [] [] []) "s."
      = .ok () := by
  constructor
  · exact (claim4_check_all_read
      (OptionsDict.mk [] [("z", { value := 5, is_used := false })] [] [] []) "s." []).2.1
      "integer" "z" rfl
  · exact (claim4_check_all_read
      (OptionsDict.mk [] [("z", { value := 5, is_used := true })] [] [] []) "s." []).1 rfl

/-- C5: parsing the example grammar string yields integer a=1,
floating-point b=2.5, text c="x", and a subdictionary d holding integer e=3
that resolves keys of the enclosing scope through its parent reference
(modelled by reading d with the parsed dictionary as its ancestor chain);
HasSubdict of d is true; and Get of e on the parsed scope itself fails with
the KeyNotFound message, since lookup never descends into subdictionaries. -/
theorem claim5_parse_string :
    ((OptionsDict.AddSubdictFromString OptionsDict.empty
        "a=1, b=2.5, c=\"x\", d(e=3)").map (fun D =>
      (OptionsDict.GetVal .vInt "a" D [],
       OptionsDict.GetVal .vFloat "b" D [],
       OptionsDict.GetVal .vString "c" D [],
       OptionsDict.HasSubdict D "d",
       ((OptionsDict.findSubdict "d" D.subdicts).map (fun sub =>
          (OptionsDict.GetVal .vInt "e" sub [D],
           OptionsDict.GetVal .vInt "a" sub [D]))),
       OptionsDict.GetVal .vInt "e" D [])))
    = .ok (.ok 1, .ok { mant := 25, exp10 := -1 }, .ok "x", true,
           some (.ok 3, .ok 1), .error "Key [e] was not set in options.") := rfl

theorem GetVal_Set_ne (t : VType) {k1 k2 : String} (h : k2 ≠ k1) (x : t.denote)
    (d : OptionsDict) (chain : List OptionsDict) :
    OptionsDict.GetVal t k2 (OptionsDict.Set t k1 x d) chain
      = OptionsDict.GetVal t k2 d chain := by
  have hfind2 : TypeDict.find k2 (OptionsDict.tdict t (OptionsDict.Set t k1 x d))
      = TypeDict.find k2 (OptionsDict.tdict t d) := by
    rw [OptionsDict.Set, tdict_withTdict]
    exact find_setEntry_ne h x _
  cases hf : TypeDict.find k2 (OptionsDict.tdict t d) with
  | some v0 =>
    rw [hf] at hfind2
    cases chain <;>
      simp [OptionsDict.GetVal, OptionsDict.Get, hfind2, hf, TypeDict.V.Get, Except.map]
  | none =>
    rw [hf] at hfind2
    cases chain with
    | nil => simp [OptionsDict.GetVal, OptionsDict.Get, hfind2, hf]
    | cons p rest =>
      cases hg : OptionsDict.Get t k2 p rest with
      | ok r => simp [OptionsDict.GetVal, OptionsDict.Get, hfind2, hf, hg, Except.map]
      | error e => simp [OptionsDict.GetVal, OptionsDict.Get, hfind2, hf, hg, Except.map]

/-- C6: identity-keyed Get, Set and Exists are exactly the string-keyed
operations at the stable derived string GetOptionId; distinct OptionId
objects (distinct addresses - the stored display fields may coincide)
always derive distinct strings, so a Set through one never changes what a
Get through the other returns; and the derived string is a pure function of
the object, hence stable within a run. -/
theorem claim6_identity_keys (t : VType) (oid o1 o2 : OptionId) (x : t.denote)
    (d : OptionsDict) (chain : List OptionsDict) (hne : o1.addr ≠ o2.addr) :
    OptionsDict.GetById t oid d chain
      = OptionsDict.Get t (OptionsDict.GetOptionId oid) d chain ∧
    OptionsDict.SetById t oid x d
      = OptionsDict.Set t (OptionsDict.GetOptionId oid) x d ∧
    OptionsDict.ExistsById t oid d chain
      = OptionsDict.Exists t (OptionsDict.GetOptionId oid) d chain ∧
    OptionsDict.GetOptionId o1 ≠ OptionsDict.GetOptionId o2 ∧
    OptionsDict.GetVal t (OptionsDict.GetOptionId o2) (OptionsDict.SetById t o1 x d) chain
      = OptionsDict.GetVal t (OptionsDict.GetOptionId o2) d chain := by
  have hids : OptionsDict.GetOptionId o1 ≠ OptionsDict.GetOptionId o2 :=
    fun hh => hne (natToString_inj hh)
  exact ⟨rfl, rfl, rfl, hids, GetVal_Set_ne t (Ne.symm hids) x d chain⟩

/-- Witness for C6: two OptionId objects with identical stored fields but
distinct addresses derive distinct strings. -/
theorem claim6_identity_keys_witness :
    OptionsDict.GetOptionId (OptionId.mk "f" "U" "h" 'f' 0)
      ≠ OptionsDict.GetOptionId (OptionId.mk "f" "U" "h" 'f' 1) :=
  (claim6_identity_keys .vInt
    (OptionId.mk "f" "U" "h" 'f' 0)
    (OptionId.mk "f" "U" "h" 'f' 0)
    (OptionId.mk "f" "U" "h" 'f' 1)
    5 OptionsDict.empty [] (by decide)).2.2.2.1

/-- C7 as stated is false on the code: GetOptionId renders the address of
the object (std::to_string of the pointer value); OptionId stores no
assigned id, only the two flags, the option name and the help text.  Were
the stable string an id stored inside the object, it would be a function of
the stored fields; here two OptionId values equal in every stored field but
at different addresses derive different strings. -/
theorem claim7_counterexample :
    ¬ (∀ o1 o2 : OptionId, o1.long_flag = o2.long_flag →
        o1.uci_option = o2.uci_option → o1.help_text = o2.help_text →
        o1.short_flag = o2.short_flag →
        OptionsDict.GetOptionId o1 = OptionsDict.GetOptionId o2) := by
  intro hfun
  have h := hfun (OptionId.mk "f" "U" "h" 'f' 0) (OptionId.mk "f" "U" "h" 'f' 1)
    rfl rfl rfl rfl
  have h01 : (0 : Nat) = 1 := natToString_inj h
  exact absurd h01 (by decide)

/-- C7 amended: the stable string identifying an OptionId is derived from
the memory address of the object (std::to_string of the pointer value) and
from nothing else - OptionId stores no assigned construction-time id, and
two objects at the same modelled address derive the same string whatever
their stored fields. -/
theorem claim7_amended (o1 o2 : OptionId) (h : o1.addr = o2.addr) :
    OptionsDict.GetOptionId o1 = natToString o1.addr ∧
    OptionsDict.GetOptionId o1 = OptionsDict.GetOptionId o2 :=
  ⟨rfl, by rw [OptionsDict.GetOptionId, OptionsDict.GetOptionId, h]⟩

/-- Witness for C7 amended: same address, different stored fields, same
derived string. -/
theorem claim7_amended_witness :
    OptionsDict.GetOptionId (OptionId.mk "a" "A" "x" 'a' 7)
      = OptionsDict.GetOptionId (OptionId.mk "b" "B" "y" 'b' 7) :=
  (claim7_amended (OptionId.mk "a" "A" "x" 'a' 7) (OptionId.mk "b" "B" "y" 'b' 7) rfl).2

/-- C8: GetOrDefault is total (it returns a value for every input), follows
the same chain resolution as Get, and yields the supplied default exactly
when the key is absent from every scope of the chain. -/
theorem claim8_get_or_default (t : VType) (k : String) (dv : t.denote)
    (d : OptionsDict) (chain : List OptionsDict) :
    (OptionsDict.GetOrDefault t k dv d chain).1
      = (specResolve t k (d :: chain)).getD dv ∧
    (specResolve t k (d :: chain) = none →
      (OptionsDict.GetOrDefault t k dv d chain).1 = dv) := by
  have main : ∀ (chain : List OptionsDict) (d : OptionsDict),
      (OptionsDict.GetOrDefault t k dv d chain).1
        = (specResolve t k (d :: chain)).getD dv := by
    intro chain
    induction chain with
    | nil =>
      intro d
      cases hfind : TypeDict.find k (OptionsDict.tdict t d) with
      | some v0 => simp [OptionsDict.GetOrDefault, specResolve, hfind, TypeDict.V.Get]
      | none => simp [OptionsDict.GetOrDefault, specResolve, hfind]
    | cons p rest ih =>
      intro d
      cases hfind : TypeDict.find k (OptionsDict.tdict t d) with
      | some v0 => simp [OptionsDict.GetOrDefault, specResolve, hfind, TypeDict.V.Get]
      | none => simp [OptionsDict.GetOrDefault, specResolve, hfind, ih]
  refine ⟨main chain d, ?_⟩
  intro h
  rw [main chain d, h]
  rfl

/-- Witness for C8: on an empty parentless scope the default comes back. -/
theorem claim8_get_or_default_witness :
    (OptionsDict.GetOrDefault .vInt "k" 9 OptionsDict.empty []).1 = 9 :=
  (claim8_get_or_default .vInt "k" 9 OptionsDict.empty []).2 rfl

/-- C9: GetRef works on the own typed store only (no ancestor chain is ever
consulted - the operation does not even receive one): a missing key is
created with the zero value of the type, a present key keeps its value; in
either case the entry ends up in the own store marked read with exactly the
returned value, and the subdictionaries are untouched. -/
theorem claim9_get_ref (t : VType) (k : String) (d : OptionsDict) :
    (TypeDict.find k (OptionsDict.tdict t d) = none →
      (OptionsDict.GetRef t k d).1 = VType.zero t) ∧
    (∀ v, TypeDict.find k (OptionsDict.tdict t d) = some v →
      (OptionsDict.GetRef t k d).1 = v.value) ∧
    TypeDict.find k (OptionsDict.tdict t (OptionsDict.GetRef t k d).2)
      = some { value := (OptionsDict.GetRef t k d).1, is_used := true } ∧
    (OptionsDict.GetRef t k d).2.subdicts = d.subdicts := by
  refine ⟨?_, ?_, ?_, ?_⟩
  · intro h
    simp [OptionsDict.GetRef, getRefEntry_val, h]
  · intro v h
    simp [OptionsDict.GetRef, getRefEntry_val, h]
  · simp [OptionsDict.GetRef, tdict_withTdict, find_getRefEntry_self]
  · simp [OptionsDict.GetRef, subdicts_withTdict]

/-- Witness for C9: on an empty scope the integer zero value is created and
returned. -/
theorem claim9_get_ref_witness :
    (OptionsDict.GetRef .vInt "k" OptionsDict.empty).1 = 0 :=
  (claim9_get_ref .vInt "k" OptionsDict.empty).1 rfl

/-- C10: Exists and IsDefault are pure observers: over any ancestor chain
they return the scope and the whole chain exactly as given - no read flag
is set anywhere - so running them never changes what CheckAllOptionsRead
later reports. -/
theorem claim10_observers_frame (t : VType) (k : String) (d : OptionsDict)
    (chain : List OptionsDict) :
    (OptionsDict.Exists t k d chain).2 = (d, chain) ∧
    (OptionsDict.IsDefault t k d chain).2 = (d, chain) := by
  induction chain generalizing d with
  | nil =>
    constructor
    · cases hfind : TypeDict.find k (OptionsDict.tdict t d) <;>
        simp [OptionsDict.Exists, hfind]
    · rfl
  | cons p rest ih =>
    constructor
    · cases hfind : TypeDict.find k (OptionsDict.tdict t d) with
      | some v0 => simp [OptionsDict.Exists, hfind]
      | none => simp [OptionsDict.Exists, hfind, (ih p).1]
    · cases hfind : TypeDict.find k (OptionsDict.tdict t d) with
      | some v0 => simp [OptionsDict.IsDefault, hfind]
      | none => simp [OptionsDict.IsDefault, hfind, (ih p).2]
